import Mathlib

/-!
Verification of the account-vetting ("filter check") subsystem of the
CG-Filter-check bot.  The Lean definitions below are a shallow embedding of
the Python sources:

* src/config.py           — permission gate (Config.is_bot_owner,
                            Config.is_test_server, Config.has_permission,
                            Config.is_server_allowed)
* src/cogs/filter_check.py — text normalizer (HOMOGLYPHS, INVISIBLE_CHARS,
                            remove_invisible, normalize_text), the external
                            data fetchers, the Trello blacklist scan
                            (check_trello_blacklist), the badge growth series
                            (generate_badge_growth_graph) and the vetting
                            pipeline (FilterCheck.check).

Machine integers are modelled as Int/Nat (Python integers are unbounded, so
no wrap-around modelling is needed).  Timestamps are modelled as Int (a
totally ordered time axis is all the code relies on).  Network fetches are
modelled by explicit upstream-outcome values; this makes the pipeline a pure
function of its configuration and of the fetch outcomes of one run.
-/

namespace CGFilter

set_option maxRecDepth 65536
set_option maxHeartbeats 1600000

/-! ### Permission gate (src/config.py lines 52-119, filter_check.py 358-382) -/

/-- The permission-relevant configuration: the global owner and test-server
sets plus the allowed-server/allowed-role lists of the filter-check operation
(config.FILTER_CHECK["allowed_servers"] / ["allowed_roles"]). -/
structure PermPolicy where
  bot_owners : List Int
  test_servers : List Int
  allowed_servers : List Int
  allowed_roles : List Int
  deriving DecidableEq, Repr

/-- Config.is_bot_owner: user_id in self.bot_owners. -/
def is_bot_owner (p : PermPolicy) (userId : Int) : Bool :=
  decide (userId ∈ p.bot_owners)

/-- Config.is_test_server: guild_id in self.test_servers. -/
def is_test_server (p : PermPolicy) (guildId : Int) : Bool :=
  decide (guildId ∈ p.test_servers)

/-- Config.has_permission: owners bypass, an empty allowed-role list means
everyone, otherwise the roles of the user must intersect the allowed roles. -/
def has_permission (p : PermPolicy) (userId : Int) (userRoles : List Int)
    (allowedRoles : List Int) : Bool :=
  is_bot_owner p userId || allowedRoles.isEmpty
    || userRoles.any (fun r => decide (r ∈ allowedRoles))

/-- Config.is_server_allowed: test servers always pass, an empty
allowed-server list means every server, otherwise the guild must be listed. -/
def is_server_allowed (p : PermPolicy) (guildId : Int)
    (allowedServers : List Int) : Bool :=
  is_test_server p guildId || allowedServers.isEmpty
    || decide (guildId ∈ allowedServers)

/-- FilterCheck.check_permissions (filter_check.py 358-382): first the server
check with FILTER_CHECK["allowed_servers"]; then, only when
FILTER_CHECK["allowed_roles"] is non-empty, the role/owner check. -/
def check_permissions (p : PermPolicy) (guildId userId : Int)
    (userRoles : List Int) : Bool :=
  if !is_server_allowed p guildId p.allowed_servers then false
  else if !p.allowed_roles.isEmpty then
    has_permission p userId userRoles p.allowed_roles
  else true

/-- A policy whose owner set is {1}, with no test servers, a non-empty
allowed-server list {5} and no role restriction. -/
def permPolicyC1 : PermPolicy :=
  { bot_owners := [1], test_servers := [], allowed_servers := [5],
    allowed_roles := [] }

/-- C1 counterexample: actor 1 is a configured owner, yet on guild 99 — which
is neither a test server nor a member of the non-empty allowed-server list
[5] — the permission gate refuses the filter-check operation.  Owner status
only bypasses the role check, never the server check. -/
theorem C1_owner_not_unconditional :
    is_bot_owner permPolicyC1 1 = true ∧
    check_permissions permPolicyC1 99 1 [] = false := by
  decide

/-- C1 (amended): for an actor whose id is in the configured bot-owner set,
the answer of the permission gate coincides with the server check alone: the owner
is authorized exactly when the guild is a test server, or the allowed-server
list is empty, or the guild is listed.  Owner status bypasses only the role
check. -/
theorem C1_owner_reduces_to_server_check (p : PermPolicy) (g u : Int)
    (roles : List Int) (h : is_bot_owner p u = true) :
    check_permissions p g u roles = is_server_allowed p g p.allowed_servers := by
  unfold check_permissions
  cases hsa : is_server_allowed p g p.allowed_servers with
  | false => simp
  | true =>
    simp only [Bool.not_true, Bool.false_eq_true, if_false]
    split
    · simp [has_permission, h]
    · rfl

/-- Witness for C1_owner_reduces_to_server_check at a concrete input. -/
theorem C1_owner_reduces_to_server_check_witness :
    is_bot_owner permPolicyC1 1 = true ∧
    check_permissions permPolicyC1 5 1 [7]
      = is_server_allowed permPolicyC1 5 permPolicyC1.allowed_servers :=
  ⟨by decide, C1_owner_reduces_to_server_check permPolicyC1 5 1 [7] (by decide)⟩

/-! ### Text normalizer (filter_check.py lines 69-93)

normalize_text performs, in order: unicodedata.normalize("NFKD", text),
remove_invisible, and the HOMOGLYPHS substitutions.  The NFKD step is a call
into the Python standard library; it is modelled here by the Unicode
normalization algorithm itself — each character is replaced by its full
compatibility decomposition, then the Canonical Ordering Algorithm sorts
maximal runs of characters with non-zero canonical combining class (ccc)
stably by ccc (starters, ccc 0, never move).  The decomposition and ccc
tables below carry the exact Unicode data for every character occurring in
HOMOGLYPHS, INVISIBLE_CHARS and the test strings of the spec; characters
outside the tables have no decomposition and ccc 0 in the model. -/

/-- Association-list lookup by character key (first match wins). -/
def assocLookup {β : Type} (c : Char) : List (Char × β) → Option β
  | [] => none
  | (k, v) :: rest => if c = k then some v else assocLookup c rest

/-- The HOMOGLYPHS dictionary of filter_check.py lines 69-77, in source
(insertion) order.  Keys, by codepoint: Cyrillic а А е Е о О с С р Р у У х Х
і І ї Ї ј Ј Ь ь, Latin í ì ï ī ĭ Ɩ ı, and subscript ᵢ ᵣ ₑ ₒ ₓ. -/
def HOMOGLYPHS : List (Char × Char) :=
  [('а', 'a'), ('А', 'A'), ('е', 'e'), ('Е', 'E'),
   ('о', 'o'), ('О', 'O'),
   ('с', 'c'), ('С', 'C'), ('р', 'p'), ('Р', 'P'),
   ('у', 'y'), ('У', 'Y'),
   ('х', 'x'), ('Х', 'X'), ('і', 'i'), ('І', 'I'),
   ('ї', 'i'), ('Ї', 'I'),
   ('ј', 'j'), ('Ј', 'J'), ('Ь', 'b'), ('ь', 'b'),
   ('í', 'i'), ('ì', 'i'), ('ï', 'i'), ('ī', 'i'),
   ('ĭ', 'i'), ('Ɩ', 'I'),
   ('ı', 'i'), ('ᵢ', 'i'), ('ᵣ', 'r'),
   ('ₑ', 'e'), ('ₒ', 'o'), ('ₓ', 'x')]

/-- INVISIBLE_CHARS of filter_check.py line 79: zero-width space, zero-width
non-joiner, zero-width joiner, word joiner, zero-width no-break space. -/
def INVISIBLE_CHARS : List Char :=
  ['​', '‌', '‍', '⁠', '﻿']

/-- Unicode full compatibility decompositions for the characters relevant to
this code base: í ì ï ī ĭ decompose to i plus a combining mark, Cyrillic ї Ї
decompose to і І plus combining diaeresis, and the subscript letters ᵢ ᵣ ₑ ₒ
ₓ decompose to their plain ASCII letters.  (All other keys of HOMOGLYPHS and
all of INVISIBLE_CHARS have no decomposition in Unicode.) -/
def decompTable : List (Char × List Char) :=
  [('ì', ['i', '̀']), ('í', ['i', '́']),
   ('ï', ['i', '̈']), ('ī', ['i', '̄']),
   ('ĭ', ['i', '̆']),
   ('ї', ['і', '̈']), ('Ї', ['І', '̈']),
   ('ᵢ', ['i']), ('ᵣ', ['r']),
   ('ₑ', ['e']), ('ₒ', ['o']), ('ₓ', ['x'])]

/-- Full compatibility decomposition of one character (identity for
characters with no decomposition). -/
def decomp (c : Char) : List Char := (assocLookup c decompTable).getD [c]

/-- Unicode canonical combining classes of the combining marks occurring in
decompTable and in the test strings of the spec: grave, acute, macron, breve and
diaeresis have ccc 230; combining dot below has ccc 220.  Every other
character in scope is a starter (ccc 0). -/
def cccTable : List (Char × Nat) :=
  [('̀', 230), ('́', 230), ('̄', 230), ('̆', 230),
   ('̈', 230), ('̣', 220)]

/-- Canonical combining class of a character. -/
def ccc (c : Char) : Nat := (assocLookup c cccTable).getD 0

/-- Concatenated full decomposition of a character sequence. -/
def decompAll : List Char → List Char
  | [] => []
  | c :: rest => decomp c ++ decompAll rest

/-- Stable insertion of a combining mark into an already canonically ordered
sequence: the mark moves right only past marks of strictly smaller non-zero
ccc (it never crosses a starter and never crosses an equal-ccc mark). -/
def insertMark (c : Char) : List Char → List Char
  | [] => [c]
  | d :: rest =>
      if 0 < ccc d ∧ ccc d < ccc c then d :: insertMark c rest
      else c :: d :: rest

/-- The Unicode Canonical Ordering Algorithm: exchange adjacent characters A
B whenever ccc A > ccc B > 0, until no exchange applies.  Equivalently (as
computed here) each maximal run of non-starters is sorted stably by ccc. -/
def canonicalOrder : List Char → List Char
  | [] => []
  | c :: rest =>
      if ccc c = 0 then c :: canonicalOrder rest
      else insertMark c (canonicalOrder rest)

/-- The NFKD normal form of a character sequence: full compatibility
decomposition followed by canonical ordering. -/
def nfkd (l : List Char) : List Char := canonicalOrder (decompAll l)

/-- remove_invisible (filter_check.py 82-85): for each invisible character in
turn, text.replace(ch, "") — i.e. every occurrence is dropped. -/
def remove_invisible (l : List Char) : List Char :=
  INVISIBLE_CHARS.foldl (fun acc ch => acc.filter (fun c => c ≠ ch)) l

/-- One homoglyph substitution applied to one character. -/
def applyHomoglyph (c : Char) (p : Char × Char) : Char :=
  if c = p.1 then p.2 else c

/-- The character-level effect of applying every HOMOGLYPHS substitution in
dictionary order. -/
def hFun (c : Char) : Char := HOMOGLYPHS.foldl applyHomoglyph c

/-- The HOMOGLYPHS loop of normalize_text (filter_check.py 91-92): for each
(bad, good) pair in dictionary order, text.replace(bad, good); since every
key is a single character this replaces each occurrence pointwise. -/
def applyHomoglyphs (l : List Char) : List Char :=
  HOMOGLYPHS.foldl (fun acc p => acc.map (fun c => applyHomoglyph c p)) l

/-- normalize_text (filter_check.py 88-93): NFKD, then invisible-character
stripping, then homoglyph substitution, in that fixed order.  Python strings
are modelled throughout as their code-point sequences (List Char); a String
literal s denotes the sequence s.data. -/
def normalize_text (l : List Char) : List Char :=
  applyHomoglyphs (remove_invisible (nfkd l))

/-- C4 counterexample: the lookalike string of the spec is а р р ӏ е (U+0430
U+0440 U+0440 U+04CF U+0435), whose fourth character is CYRILLIC SMALL
LETTER PALOCHKA (U+04CF).  Palochka is not a key of HOMOGLYPHS (the table
folds і U+0456 and Ɩ U+0196, but no character to Latin l), has no Unicode
decomposition and is not invisible, so it survives normalization unchanged
and the two normal forms differ. -/
theorem C4_palochka_not_folded :
    normalize_text ("аррӏе" : String).data
      ≠ normalize_text ("apple" : String).data := by
  decide

/-- C4 (amended): with the un-mapped palochka replaced by Latin l — the
string а р р l е — the configured homoglyph table folds every Cyrillic
lookalike to Latin and the two normal forms coincide:
normalize("аррlе") == normalize("apple"). -/
theorem C4_homoglyphs_fold_to_latin :
    normalize_text ("аррlе" : String).data
      = normalize_text ("apple" : String).data := by
  decide

/-! #### Idempotence analysis of normalize_text -/

/-- The no-exchange relation of the Canonical Ordering Algorithm: adjacent
characters a b need no exchange unless ccc a > ccc b > 0. -/
abbrev NoSwap (a b : Char) : Prop := ¬(0 < ccc b ∧ ccc b < ccc a)

theorem assocLookup_mem {β : Type} {c : Char} {v : β} :
    ∀ {tbl : List (Char × β)}, assocLookup c tbl = some v → ∃ k, (k, v) ∈ tbl := by
  intro tbl
  induction tbl with
  | nil => intro h; simp [assocLookup] at h
  | cons p rest ih =>
    obtain ⟨k, w⟩ := p
    intro h
    simp only [assocLookup] at h
    split at h
    · injection h with h
      exact ⟨k, by simp [h]⟩
    · obtain ⟨k2, hk⟩ := ih h
      exact ⟨k2, List.mem_cons_of_mem _ hk⟩

/-- Every character occurring in some decomposition has itself no
decomposition (the tables list full decompositions). -/
theorem decompTable_values_inert :
    ∀ p ∈ decompTable, ∀ d ∈ p.2, assocLookup d decompTable = none := by decide

/-- No character occurring in a decomposition is an invisible character. -/
theorem decompTable_values_not_invisible :
    ∀ p ∈ decompTable, ∀ d ∈ p.2, d ∉ INVISIBLE_CHARS := by decide

theorem mem_decomp_inert {d c : Char} (h : d ∈ decomp c) : decomp d = [d] := by
  unfold decomp at h ⊢
  cases hl : assocLookup c decompTable with
  | none =>
      rw [hl] at h
      simp at h
      subst h
      rw [hl]
      rfl
  | some v =>
      rw [hl] at h
      simp at h
      obtain ⟨k, hk⟩ := assocLookup_mem hl
      rw [decompTable_values_inert (k, v) hk d h]
      rfl

theorem mem_decomp_not_invisible {d c : Char} (hc : c ∉ INVISIBLE_CHARS)
    (h : d ∈ decomp c) : d ∉ INVISIBLE_CHARS := by
  unfold decomp at h
  cases hl : assocLookup c decompTable with
  | none =>
      rw [hl] at h
      simp at h
      subst h
      exact hc
  | some v =>
      rw [hl] at h
      simp at h
      obtain ⟨k, hk⟩ := assocLookup_mem hl
      exact decompTable_values_not_invisible (k, v) hk d h

theorem decompAll_eq_self {l : List Char} (h : ∀ c ∈ l, decomp c = [c]) :
    decompAll l = l := by
  induction l with
  | nil => rfl
  | cons c rest ih =>
      simp only [decompAll]
      rw [h c (List.mem_cons_self _ _),
        ih (fun d hd => h d (List.mem_cons_of_mem _ hd))]
      rfl

theorem mem_decompAll {d : Char} {l : List Char} (h : d ∈ decompAll l) :
    ∃ c ∈ l, d ∈ decomp c := by
  induction l with
  | nil => simp [decompAll] at h
  | cons c rest ih =>
      simp only [decompAll, List.mem_append] at h
      cases h with
      | inl h => exact ⟨c, List.mem_cons_self _ _, h⟩
      | inr h =>
          obtain ⟨e, he, hd⟩ := ih h
          exact ⟨e, List.mem_cons_of_mem _ he, hd⟩

theorem mem_insertMark {d c : Char} :
    ∀ {l : List Char}, d ∈ insertMark c l → d = c ∨ d ∈ l := by
  intro l
  induction l with
  | nil =>
      intro h
      simp [insertMark] at h
      exact Or.inl h
  | cons e rest ih =>
      intro h
      simp only [insertMark] at h
      split at h
      · rcases List.mem_cons.mp h with h | h
        · exact Or.inr (h ▸ List.mem_cons_self _ _)
        · rcases ih h with h | h
          · exact Or.inl h
          · exact Or.inr (List.mem_cons_of_mem _ h)
      · rcases List.mem_cons.mp h with h | h
        · exact Or.inl h
        · exact Or.inr h

theorem insertMark_chain {c : Char} :
    ∀ {l : List Char}, List.Chain' NoSwap l →
    List.Chain' NoSwap (insertMark c l) := by
  intro l
  induction l with
  | nil =>
      intro _
      simp only [insertMark]
      exact List.chain'_singleton c
  | cons d rest ih =>
      intro h
      simp only [insertMark]
      split
      · rename_i hcond
        have hrec := ih h.tail
        rw [List.chain'_cons']
        refine ⟨?_, hrec⟩
        intro b hb
        cases rest with
        | nil =>
            simp only [insertMark, List.head?] at hb
            simp only [Option.mem_def, Option.some.injEq] at hb
            subst hb
            rintro ⟨_, h2⟩
            omega
        | cons e rest2 =>
            simp only [insertMark] at hb
            split at hb
            · simp only [List.head?, Option.mem_def, Option.some.injEq] at hb
              subst hb
              exact (List.chain'_cons.mp h).1
            · simp only [List.head?, Option.mem_def, Option.some.injEq] at hb
              subst hb
              rintro ⟨_, h2⟩
              omega
      · rename_i hcond
        rw [List.chain'_cons]
        exact ⟨hcond, h⟩

theorem canonicalOrder_chain : ∀ l : List Char,
    List.Chain' NoSwap (canonicalOrder l) := by
  intro l
  induction l with
  | nil => simp [canonicalOrder]
  | cons c rest ih =>
      simp only [canonicalOrder]
      split
      · rename_i hc0
        rw [List.chain'_cons']
        refine ⟨?_, ih⟩
        intro b _
        rintro ⟨_, h2⟩
        omega
      · exact insertMark_chain ih

theorem canonicalOrder_eq_self : ∀ {l : List Char},
    List.Chain' NoSwap l → canonicalOrder l = l := by
  intro l
  induction l with
  | nil => intro _; rfl
  | cons c rest ih =>
      intro h
      simp only [canonicalOrder]
      split
      · rw [ih h.tail]
      · rw [ih h.tail]
        cases rest with
        | nil => rfl
        | cons d rest2 =>
            have hcd : NoSwap c d := (List.chain'_cons.mp h).1
            simp only [insertMark, if_neg hcd]

theorem canonicalOrder_idem (l : List Char) :
    canonicalOrder (canonicalOrder l) = canonicalOrder l :=
  canonicalOrder_eq_self (canonicalOrder_chain l)

theorem mem_canonicalOrder {d : Char} :
    ∀ {l : List Char}, d ∈ canonicalOrder l → d ∈ l := by
  intro l
  induction l with
  | nil => simp [canonicalOrder]
  | cons c rest ih =>
      simp only [canonicalOrder]
      split
      · intro h
        rcases List.mem_cons.mp h with h | h
        · exact h ▸ List.mem_cons_self _ _
        · exact List.mem_cons_of_mem _ (ih h)
      · intro h
        rcases mem_insertMark h with h | h
        · subst h
          exact List.mem_cons_self _ _
        · exact List.mem_cons_of_mem _ (ih h)

theorem nfkd_inert {d : Char} {l : List Char} (h : d ∈ nfkd l) :
    decomp d = [d] := by
  obtain ⟨c, _, hc⟩ := mem_decompAll (mem_canonicalOrder h)
  exact mem_decomp_inert hc

theorem nfkd_idem (l : List Char) : nfkd (nfkd l) = nfkd l := by
  unfold nfkd
  have hin : ∀ c ∈ canonicalOrder (decompAll l), decomp c = [c] :=
    fun c hc => nfkd_inert (show c ∈ nfkd l from hc)
  rw [decompAll_eq_self hin]
  exact canonicalOrder_idem _

theorem nfkd_not_invisible {l : List Char}
    (h : ∀ c ∈ l, c ∉ INVISIBLE_CHARS) :
    ∀ d ∈ nfkd l, d ∉ INVISIBLE_CHARS := by
  intro d hd
  obtain ⟨c, hc, hdc⟩ := mem_decompAll (mem_canonicalOrder hd)
  exact mem_decomp_not_invisible (h c hc) hdc

theorem foldl_filter_eq_self : ∀ (chs : List Char) (l : List Char),
    (∀ c ∈ l, c ∉ chs) →
    chs.foldl (fun acc ch => acc.filter (fun c => c ≠ ch)) l = l := by
  intro chs
  induction chs with
  | nil => intro l _; rfl
  | cons ch rest ih =>
      intro l h
      simp only [List.foldl_cons]
      have hf : l.filter (fun c => c ≠ ch) = l := by
        rw [List.filter_eq_self]
        intro a ha
        simp only [ne_eq, decide_not, Bool.not_eq_eq_eq_not, Bool.not_true,
          decide_eq_false_iff_not]
        exact fun heq => h a ha (heq ▸ List.mem_cons_self _ _)
      rw [hf]
      exact ih l (fun c hc hmem => h c hc (List.mem_cons_of_mem _ hmem))

theorem remove_invisible_eq_self {l : List Char}
    (h : ∀ c ∈ l, c ∉ INVISIBLE_CHARS) : remove_invisible l = l :=
  foldl_filter_eq_self INVISIBLE_CHARS l h

theorem foldl_applyHomoglyph_result : ∀ (tbl : List (Char × Char)) (c : Char),
    tbl.foldl applyHomoglyph c = c ∨
    tbl.foldl applyHomoglyph c ∈ tbl.map Prod.snd := by
  intro tbl
  induction tbl with
  | nil => intro c; exact Or.inl rfl
  | cons p ps ih =>
      intro c
      simp only [List.foldl_cons, List.map_cons]
      rcases ih (applyHomoglyph c p) with h | h
      · rw [h]
        unfold applyHomoglyph
        split
        · exact Or.inr (List.mem_cons_self _ _)
        · exact Or.inl rfl
      · exact Or.inr (List.mem_cons_of_mem _ h)

theorem foldl_applyHomoglyph_eq_of_not_key :
    ∀ (tbl : List (Char × Char)) (c : Char), c ∉ tbl.map Prod.fst →
    tbl.foldl applyHomoglyph c = c := by
  intro tbl
  induction tbl with
  | nil => intro c _; rfl
  | cons p ps ih =>
      intro c hc
      simp only [List.map_cons, List.mem_cons] at hc
      push_neg at hc
      simp only [List.foldl_cons]
      have hstep : applyHomoglyph c p = c := by
        unfold applyHomoglyph
        rw [if_neg hc.1]
      rw [hstep]
      exact ih c hc.2

theorem foldl_applyHomoglyph_eq_of_ccc_pos :
    ∀ (tbl : List (Char × Char)), (∀ p ∈ tbl, ccc p.1 = 0) →
    ∀ c : Char, 0 < ccc c → tbl.foldl applyHomoglyph c = c := by
  intro tbl
  induction tbl with
  | nil => intro _ c _; rfl
  | cons p ps ih =>
      intro htbl c hc
      simp only [List.foldl_cons]
      have hne : c ≠ p.1 := by
        intro heq
        have := htbl p (List.mem_cons_self _ _)
        rw [← heq] at this
        omega
      have hstep : applyHomoglyph c p = c := by
        unfold applyHomoglyph
        rw [if_neg hne]
      rw [hstep]
      exact ih (fun q hq => htbl q (List.mem_cons_of_mem _ hq)) c hc

/-- Every key of HOMOGLYPHS is a starter (ccc 0). -/
theorem homoglyph_keys_ccc : ∀ p ∈ HOMOGLYPHS, ccc p.1 = 0 := by decide

/-- Every replacement character of HOMOGLYPHS is a starter (ccc 0). -/
theorem homoglyph_values_ccc : ∀ p ∈ HOMOGLYPHS, ccc p.2 = 0 := by decide

/-- Every replacement character of HOMOGLYPHS has no decomposition. -/
theorem homoglyph_values_inert : ∀ p ∈ HOMOGLYPHS, decomp p.2 = [p.2] := by
  decide

/-- No replacement character of HOMOGLYPHS is invisible. -/
theorem homoglyph_values_not_invisible :
    ∀ p ∈ HOMOGLYPHS, p.2 ∉ INVISIBLE_CHARS := by decide

/-- No replacement character of HOMOGLYPHS is itself a key (all replacements
are plain ASCII, all keys are non-ASCII lookalikes). -/
theorem homoglyph_values_not_keys :
    ∀ p ∈ HOMOGLYPHS, p.2 ∉ HOMOGLYPHS.map Prod.fst := by decide

theorem hFun_ccc (c : Char) : ccc (hFun c) = ccc c := by
  by_cases h : 0 < ccc c
  · rw [hFun, foldl_applyHomoglyph_eq_of_ccc_pos HOMOGLYPHS homoglyph_keys_ccc c h]
  · have hc0 : ccc c = 0 := by omega
    rcases foldl_applyHomoglyph_result HOMOGLYPHS c with h2 | h2
    · rw [hFun, h2]
    · simp only [List.mem_map] at h2
      obtain ⟨p, hp, hpe⟩ := h2
      rw [hFun, ← hpe, homoglyph_values_ccc p hp, hc0]

theorem hFun_inert {c : Char} (h : decomp c = [c]) :
    decomp (hFun c) = [hFun c] := by
  rcases foldl_applyHomoglyph_result HOMOGLYPHS c with h2 | h2
  · rw [hFun, h2]
    exact h
  · simp only [List.mem_map] at h2
    obtain ⟨p, hp, hpe⟩ := h2
    rw [hFun, ← hpe]
    exact homoglyph_values_inert p hp

theorem hFun_not_invisible {c : Char} (h : c ∉ INVISIBLE_CHARS) :
    hFun c ∉ INVISIBLE_CHARS := by
  rcases foldl_applyHomoglyph_result HOMOGLYPHS c with h2 | h2
  · rw [hFun, h2]
    exact h
  · simp only [List.mem_map] at h2
    obtain ⟨p, hp, hpe⟩ := h2
    rw [hFun, ← hpe]
    exact homoglyph_values_not_invisible p hp

theorem hFun_idem (c : Char) : hFun (hFun c) = hFun c := by
  rcases foldl_applyHomoglyph_result HOMOGLYPHS c with h2 | h2
  · unfold hFun
    rw [h2]
    exact h2
  · simp only [List.mem_map] at h2
    obtain ⟨p, hp, hpe⟩ := h2
    unfold hFun
    rw [← hpe]
    exact foldl_applyHomoglyph_eq_of_not_key HOMOGLYPHS p.2
      (homoglyph_values_not_keys p hp)

theorem foldl_map_applyHomoglyph : ∀ (tbl : List (Char × Char)) (l : List Char),
    tbl.foldl (fun acc p => acc.map (fun c => applyHomoglyph c p)) l
      = l.map (fun c => tbl.foldl applyHomoglyph c) := by
  intro tbl
  induction tbl with
  | nil => intro l; simp
  | cons p ps ih =>
      intro l
      simp only [List.foldl_cons]
      rw [ih (l.map (fun c => applyHomoglyph c p)), List.map_map]
      rfl

theorem applyHomoglyphs_eq_map (l : List Char) :
    applyHomoglyphs l = l.map hFun :=
  foldl_map_applyHomoglyph HOMOGLYPHS l

theorem chain_map_hFun {l : List Char} (h : List.Chain' NoSwap l) :
    List.Chain' NoSwap (l.map hFun) := by
  rw [List.chain'_map]
  refine h.imp ?_
  intro a b hab
  rw [NoSwap, hFun_ccc, hFun_ccc]
  exact hab

/-- The image of a normalized sequence under the homoglyph map is itself
NFKD-normal: its characters are decomposition-free and its combining classes
are unchanged, hence still canonically ordered. -/
theorem map_hFun_nfkd_fix (l : List Char) :
    nfkd ((nfkd l).map hFun) = (nfkd l).map hFun := by
  have h1 : ∀ d ∈ (nfkd l).map hFun, decomp d = [d] := by
    intro d hd
    simp only [List.mem_map] at hd
    obtain ⟨c, hc, rfl⟩ := hd
    exact hFun_inert (nfkd_inert hc)
  have h2 : List.Chain' NoSwap ((nfkd l).map hFun) :=
    chain_map_hFun (canonicalOrder_chain (decompAll l))
  show canonicalOrder (decompAll ((nfkd l).map hFun)) = (nfkd l).map hFun
  rw [decompAll_eq_self h1]
  exact canonicalOrder_eq_self h2

theorem map_hFun_idem (l : List Char) :
    (l.map hFun).map hFun = l.map hFun := by
  induction l with
  | nil => rfl
  | cons c rest ih => simp only [List.map_cons, hFun_idem, ih]

/-- The list-level core of the idempotence proof: one full normalization pass
over an invisible-free character sequence is a fixed point of a second pass. -/
theorem normalize_list_idem (l : List Char)
    (h : ∀ c ∈ l, c ∉ INVISIBLE_CHARS) :
    applyHomoglyphs (remove_invisible
        (nfkd (applyHomoglyphs (remove_invisible (nfkd l)))))
      = applyHomoglyphs (remove_invisible (nfkd l)) := by
  have hinv : ∀ d ∈ nfkd l, d ∉ INVISIBLE_CHARS := nfkd_not_invisible h
  rw [remove_invisible_eq_self hinv]
  simp only [applyHomoglyphs_eq_map]
  rw [map_hFun_nfkd_fix l]
  have h4 : ∀ d ∈ (nfkd l).map hFun, d ∉ INVISIBLE_CHARS := by
    intro d hd
    simp only [List.mem_map] at hd
    obtain ⟨c, hc, rfl⟩ := hd
    exact hFun_not_invisible (hinv c hc)
  rw [remove_invisible_eq_self h4]
  exact map_hFun_idem (nfkd l)

/-- C5 counterexample: normalize_text is not idempotent.  The input is
a, COMBINING ACUTE ACCENT (U+0301, ccc 230), ZERO WIDTH JOINER (U+200D),
COMBINING DOT BELOW (U+0323, ccc 220).  The input is already NFKD-normal (the
joiner, a starter, separates the two out-of-order marks), so the first pass
only strips the joiner, yielding a U+0301 U+0323.  The NFKD step of the
second pass now reorders the two adjacent marks by combining class to
a U+0323 U+0301, a different string. -/
theorem C5_normalize_not_idempotent :
    normalize_text (normalize_text ("á‍̣" : String).data)
      ≠ normalize_text ("á‍̣" : String).data := by
  decide

/-- C5 (amended): normalize_text is idempotent on every input that contains
no invisible characters.  (The counterexample forces exactly this exception:
stripping an invisible character can bring two combining marks of decreasing
combining class together, which the NFKD step of the next pass
    reorders.) -/
theorem C5_normalize_idempotent_no_invisibles (l : List Char)
    (h : ∀ c ∈ l, c ∉ INVISIBLE_CHARS) :
    normalize_text (normalize_text l) = normalize_text l :=
  normalize_list_idem l h

/-- Witness for C5_normalize_idempotent_no_invisibles at a concrete input. -/
theorem C5_normalize_idempotent_no_invisibles_witness :
    (∀ c ∈ ("аррӏе" : String).data, c ∉ INVISIBLE_CHARS) ∧
    normalize_text (normalize_text ("аррӏе" : String).data)
      = normalize_text ("аррӏе" : String).data :=
  ⟨by decide, C5_normalize_idempotent_no_invisibles _ (by decide)⟩

/-! ### Kanban (Trello) blacklist scan (filter_check.py 304-344) -/

/-- Contiguous-subsequence (substring) test on code-point sequences,
modelling the Python test needle in haystack on str. -/
def subChars (needle : List Char) : List Char → Bool
  | [] => needle.isEmpty
  | c :: rest => needle.isPrefixOf (c :: rest) || subChars needle rest

/-- Case-insensitive substring containment: the Python test
needle.lower() in haystack.lower(), at code-point level.  Char.toLower models
str.lower character-wise (exact on ASCII, which is all the configured
category keywords use). -/
def containsCI (haystack needle : String) : Bool :=
  subChars (needle.data.map Char.toLower) (haystack.data.map Char.toLower)

/-- A Trello card: fields name and due (due is an optional timestamp). -/
structure Card where
  name : String
  due : Option Int
  deriving DecidableEq, Repr

/-- A Trello list: its name and its cards. -/
structure TrelloList where
  name : String
  cards : List Card
  deriving DecidableEq, Repr

/-- The value check_trello_blacklist builds: the major bucket and the
minor bucket (called major_blacklists and blacklists in the code). -/
structure BlacklistInfo where
  major_blacklists : List String
  blacklists : List String
  deriving DecidableEq, Repr

/-- The Trello-related configuration (config.FILTER_CHECK). -/
structure TrelloConfig where
  major_blacklist_categories : List String
  deny_blacklist_categories : List String
  skip_categories : List String
  deriving DecidableEq, Repr

/-- A card is skipped exactly when it carries a due date strictly in the
past (filter_check.py 329-332). -/
def cardPastDue (now : Int) (card : Card) : Bool :=
  match card.due with
  | some due => decide (due < now)
  | none => false

/-- any(identifier.lower() in card_name.lower() for identifier in
identifiers) (filter_check.py 333). -/
def cardMatches (identifiers : List String) (card : Card) : Bool :=
  identifiers.any (fun ident => containsCI card.name ident)

/-- The append-if-absent idiom of filter_check.py 335-339. -/
def addIfAbsent (x : String) (l : List String) : List String :=
  if x ∈ l then l else l ++ [x]

/-- The inner card loop of check_trello_blacklist for one list. -/
def scanCards (cfg : TrelloConfig) (identifiers : List String) (now : Int)
    (listName : String) : List Card → BlacklistInfo → BlacklistInfo
  | [], acc => acc
  | card :: rest, acc =>
    if cardPastDue now card then
      scanCards cfg identifiers now listName rest acc
    else if cardMatches identifiers card then
      if listName ∈ cfg.major_blacklist_categories then
        scanCards cfg identifiers now listName rest
          ⟨addIfAbsent listName acc.major_blacklists, acc.blacklists⟩
      else
        scanCards cfg identifiers now listName rest
          ⟨acc.major_blacklists, addIfAbsent listName acc.blacklists⟩
    else
      scanCards cfg identifiers now listName rest acc

/-- The outer list loop of check_trello_blacklist: lists whose name is in
the skip set are ignored. -/
def scanLists (cfg : TrelloConfig) (identifiers : List String) (now : Int) :
    List TrelloList → BlacklistInfo → BlacklistInfo
  | [], acc => acc
  | tl :: rest, acc =>
    if tl.name ∈ cfg.skip_categories then
      scanLists cfg identifiers now rest acc
    else
      scanLists cfg identifiers now rest
        (scanCards cfg identifiers now tl.name tl.cards acc)

/-- check_trello_blacklist (filter_check.py 304-344) applied to a
successfully fetched and decoded board. -/
def check_trello_blacklist (cfg : TrelloConfig) (identifiers : List String)
    (now : Int) (board : List TrelloList) : BlacklistInfo :=
  scanLists cfg identifiers now board ⟨[], []⟩

/-! ### Vetting pipeline (filter_check.py 393-507)

FilterCheck.check is a sequential orchestration of the fetchers.  It is
modelled as a pure function of the configuration and of an environment
record carrying the outcome each fetch would produce in this run (None for
a failed fetch, exactly the sentinel the fetcher returns).  The trace
records which later stages were reached, for the short-circuit claims. -/

/-- The result of fetch_discord_user_info on success (filter_check.py
289-295). -/
structure DiscordInfo where
  id : Int
  username : String
  account_age_days : Int
  isBot : Bool
  avatar_url : Option String
  deriving DecidableEq, Repr

/-- The dictionary fetch_roblox_user_data returns on success
(filter_check.py 150-160). -/
structure RobloxData where
  username : String
  user_id : Int
  account_age_days : Int
  account_created_date : Int
  followers : Int
  following : Int
  friends : Int
  badge_count : Nat
  badge_pages : Nat
  deriving DecidableEq, Repr

/-- One accumulated badge: name plus parsed creation date
(filter_check.py 203-206). -/
structure Badge where
  name : String
  creation_date : Int
  deriving DecidableEq, Repr

/-- The configuration the pipeline reads (config.FILTER_CHECK). -/
structure FilterConfig where
  perm : PermPolicy
  trello : TrelloConfig
  min_discord_age_days : Int
  min_badge_count : Nat
  deriving DecidableEq, Repr

/-- The fetch outcomes of one pipeline run.  discord_id_int is the result of
int(discord_id) (none models the ValueError branch); discord_info,
roblox_data and trello_board are none exactly when the respective fetch
returns its failure sentinel; pipeline_badges/pipeline_badge_count are the
result of the second fetch_user_badges_with_count call (filter_check.py
456). -/
structure Env where
  guildId : Int
  userId : Int
  userRoles : List Int
  discord_id_int : Option Int
  discord_info : Option DiscordInfo
  roblox_data : Option RobloxData
  trello_board : Option (List TrelloList)
  now : Int
  pipeline_badges : List Badge
  pipeline_badge_count : Nat
  deriving DecidableEq, Repr

/-- The denial reasons the pipeline can emit, as structured data. -/
inductive DenyReason where
  | discordTooYoung
  | majorBlacklist (categories : List String)
  | minorBlacklist (categories : List String)
  | notEnoughBadges (count : Nat) (minimum : Nat)
  deriving DecidableEq, Repr

/-- The exact reason strings the code passes to send_check_result
(filter_check.py 419, 437, 448, 461). -/
def reasonText : DenyReason → String
  | .discordTooYoung => "DISCORD ACCOUNT TOO YOUNG"
  | .majorBlacklist categories =>
      "MAJOR BLACKLIST DETECTED: " ++ String.intercalate ", " categories
  | .minorBlacklist categories =>
      "BLACKLIST DETECTED: " ++ String.intercalate ", " categories
  | .notEnoughBadges count minimum =>
      "NOT ENOUGH BADGES DETECTED (" ++ toString count ++ "/"
        ++ toString minimum ++ ")"

/-- What one pipeline run produces: a silent early return (blocked by the
permission gate, invalid id, failed discord fetch, failed roblox fetch), a
denial with its reason, or the approved report (which records the major and
minor blacklist buckets and the badge count). -/
inductive Outcome where
  | blocked
  | invalidId
  | noDiscordUser
  | noRobloxUser
  | denied (reason : DenyReason)
  | approved (major_blacklists : List String) (blacklists : List String)
      (badge_count : Nat)
  deriving DecidableEq, Repr

/-- The outcome of a run together with which stages were reached. -/
structure RunTrace where
  outcome : Outcome
  roblox_fetch_called : Bool
  trello_fetch_called : Bool
  minor_check_evaluated : Bool
  groups_fetch_called : Bool
  badge_fetch_called : Bool
  badge_check_evaluated : Bool
  deriving DecidableEq, Repr

/-- FilterCheck.check (filter_check.py 398-507): permission gate, id parse,
discord fetch, age threshold, roblox fetch, trello scan, major-blacklist
check, minor deny-keyword check, groups fetch, badge fetch, badge threshold,
and the approved report. -/
def run_check (cfg : FilterConfig) (env : Env) : RunTrace :=
  if !(check_permissions cfg.perm env.guildId env.userId env.userRoles) then
    ⟨.blocked, false, false, false, false, false, false⟩
  else
    match env.discord_id_int with
    | none => ⟨.invalidId, false, false, false, false, false, false⟩
    | some discord_id_int =>
      match env.discord_info with
      | none => ⟨.noDiscordUser, false, false, false, false, false, false⟩
      | some user_info =>
        if user_info.account_age_days < cfg.min_discord_age_days then
          ⟨.denied .discordTooYoung, false, false, false, false, false, false⟩
        else
          match env.roblox_data with
          | none => ⟨.noRobloxUser, true, false, false, false, false, false⟩
          | some user_data =>
            let identifiers := [user_data.username, toString discord_id_int]
            let blacklist_info :=
              env.trello_board.map
                (check_trello_blacklist cfg.trello identifiers env.now)
            let major_blacklists :=
              match blacklist_info with
              | some bi => bi.major_blacklists
              | none => []
            let blacklists :=
              match blacklist_info with
              | some bi => bi.blacklists
              | none => []
            if major_blacklists = [] then
              let deny_blacklists := blacklists.filter (fun bl =>
                cfg.trello.deny_blacklist_categories.any
                  (fun deny_cat => containsCI bl deny_cat))
              if deny_blacklists = [] then
                if env.pipeline_badge_count < cfg.min_badge_count then
                  ⟨.denied (.notEnoughBadges env.pipeline_badge_count
                      cfg.min_badge_count),
                    true, true, true, true, true, true⟩
                else
                  ⟨.approved major_blacklists blacklists
                      env.pipeline_badge_count,
                    true, true, true, true, true, true⟩
              else
                ⟨.denied (.minorBlacklist deny_blacklists),
                  true, true, true, false, false, false⟩
            else
              ⟨.denied (.majorBlacklist major_blacklists),
                true, true, false, false, false, false⟩

/-- C2: in a run that reaches the blacklist stage and whose major bucket is
non-empty, the pipeline denies with the reason listing every matching major
category joined by a comma, and neither the minor deny-keyword check nor the
badge-threshold comparison is evaluated (nor is the second badge fetch
performed). -/
theorem C2_major_blacklist_short_circuits (cfg : FilterConfig) (env : Env)
    (d : Int) (info : DiscordInfo) (ud : RobloxData) (board : List TrelloList)
    (hperm : check_permissions cfg.perm env.guildId env.userId env.userRoles
      = true)
    (hd : env.discord_id_int = some d)
    (hinfo : env.discord_info = some info)
    (hage : ¬(info.account_age_days < cfg.min_discord_age_days))
    (hud : env.roblox_data = some ud)
    (hboard : env.trello_board = some board)
    (hmajor : (check_trello_blacklist cfg.trello [ud.username, toString d]
      env.now board).major_blacklists ≠ []) :
    (run_check cfg env).outcome = .denied (.majorBlacklist
      (check_trello_blacklist cfg.trello [ud.username, toString d]
        env.now board).major_blacklists) ∧
    reasonText (.majorBlacklist
      (check_trello_blacklist cfg.trello [ud.username, toString d]
        env.now board).major_blacklists)
      = "MAJOR BLACKLIST DETECTED: " ++ String.intercalate ", "
          ((check_trello_blacklist cfg.trello [ud.username, toString d]
            env.now board).major_blacklists) ∧
    (run_check cfg env).minor_check_evaluated = false ∧
    (run_check cfg env).badge_fetch_called = false ∧
    (run_check cfg env).badge_check_evaluated = false := by
  simp only [run_check, hperm, hd, hinfo, hud, hboard, Bool.not_true,
    Bool.false_eq_true, if_false, if_neg hage, Option.map_some']
  rw [if_neg hmajor]
  exact ⟨rfl, rfl, rfl, rfl, rfl⟩

/-- C6: when the chat-platform id parses, the discord fetch succeeds and the
fetched account age is strictly below the configured minimum, the run is
denied with reason DISCORD ACCOUNT TOO YOUNG and the Roblox profile fetcher
is never invoked. -/
theorem C6_young_discord_account_denied_before_roblox (cfg : FilterConfig)
    (env : Env) (d : Int) (info : DiscordInfo)
    (hperm : check_permissions cfg.perm env.guildId env.userId env.userRoles
      = true)
    (hd : env.discord_id_int = some d)
    (hinfo : env.discord_info = some info)
    (hage : info.account_age_days < cfg.min_discord_age_days) :
    (run_check cfg env).outcome = .denied .discordTooYoung ∧
    reasonText .discordTooYoung = "DISCORD ACCOUNT TOO YOUNG" ∧
    (run_check cfg env).roblox_fetch_called = false := by
  refine ⟨?_, rfl, ?_⟩ <;>
    simp only [run_check, hperm, hd, hinfo, Bool.not_true, Bool.false_eq_true,
      if_false, if_pos hage]

/-- C3: in a run that reaches the minor-blacklist check (major bucket
empty), the run yields the minor-blacklist denial exactly when some recorded
minor category name case-insensitively contains a configured deny keyword;
the denial reason joins exactly the matching category names; and when no
category matches, the run proceeds to the badge threshold with the minor
categories still recorded in the approved report. -/
theorem C3_minor_deny_keywords_decide_denial (cfg : FilterConfig) (env : Env)
    (d : Int) (info : DiscordInfo) (ud : RobloxData) (board : List TrelloList)
    (hperm : check_permissions cfg.perm env.guildId env.userId env.userRoles
      = true)
    (hd : env.discord_id_int = some d)
    (hinfo : env.discord_info = some info)
    (hage : ¬(info.account_age_days < cfg.min_discord_age_days))
    (hud : env.roblox_data = some ud)
    (hboard : env.trello_board = some board)
    (hmajor0 : (check_trello_blacklist cfg.trello [ud.username, toString d]
      env.now board).major_blacklists = []) :
    ((∃ cats, (run_check cfg env).outcome = .denied (.minorBlacklist cats)) ↔
      ((check_trello_blacklist cfg.trello [ud.username, toString d]
        env.now board).blacklists.filter (fun bl =>
          cfg.trello.deny_blacklist_categories.any
            (fun deny_cat => containsCI bl deny_cat))) ≠ []) ∧
    (((check_trello_blacklist cfg.trello [ud.username, toString d]
        env.now board).blacklists.filter (fun bl =>
          cfg.trello.deny_blacklist_categories.any
            (fun deny_cat => containsCI bl deny_cat))) ≠ [] →
      (run_check cfg env).outcome = .denied (.minorBlacklist
        ((check_trello_blacklist cfg.trello [ud.username, toString d]
          env.now board).blacklists.filter (fun bl =>
            cfg.trello.deny_blacklist_categories.any
              (fun deny_cat => containsCI bl deny_cat)))) ∧
      reasonText (.minorBlacklist
        ((check_trello_blacklist cfg.trello [ud.username, toString d]
          env.now board).blacklists.filter (fun bl =>
            cfg.trello.deny_blacklist_categories.any
              (fun deny_cat => containsCI bl deny_cat))))
        = "BLACKLIST DETECTED: " ++ String.intercalate ", "
            ((check_trello_blacklist cfg.trello [ud.username, toString d]
              env.now board).blacklists.filter (fun bl =>
                cfg.trello.deny_blacklist_categories.any
                  (fun deny_cat => containsCI bl deny_cat)))) ∧
    (((check_trello_blacklist cfg.trello [ud.username, toString d]
        env.now board).blacklists.filter (fun bl =>
          cfg.trello.deny_blacklist_categories.any
            (fun deny_cat => containsCI bl deny_cat))) = [] →
      (run_check cfg env).outcome =
        (if env.pipeline_badge_count < cfg.min_badge_count then
          .denied (.notEnoughBadges env.pipeline_badge_count
            cfg.min_badge_count)
        else
          .approved (check_trello_blacklist cfg.trello
              [ud.username, toString d] env.now board).major_blacklists
            (check_trello_blacklist cfg.trello [ud.username, toString d]
              env.now board).blacklists
            env.pipeline_badge_count)) := by
  simp only [run_check, hperm, hd, hinfo, hud, hboard, Bool.not_true,
    Bool.false_eq_true, if_false, if_neg hage, Option.map_some']
  rw [if_pos hmajor0]
  by_cases hD : ((check_trello_blacklist cfg.trello [ud.username, toString d]
      env.now board).blacklists.filter (fun bl =>
        cfg.trello.deny_blacklist_categories.any
          (fun deny_cat => containsCI bl deny_cat))) = []
  · rw [if_pos hD]
    refine ⟨⟨?_, fun h => absurd hD h⟩, fun h => absurd hD h, fun _ => ?_⟩
    · rintro ⟨cats, hc⟩
      exfalso
      revert hc
      split <;> simp
    · split <;> rfl
  · rw [if_neg hD]
    exact ⟨⟨fun _ => hD, fun _ => ⟨_, rfl⟩⟩, fun _ => ⟨rfl, rfl⟩,
      fun h => absurd h hD⟩

/-- C10: when the Trello blacklist fetch fails (returns its None sentinel),
the pipeline continues with both buckets empty: a run whose other fetches
succeed and whose badge count meets the threshold is Approved with empty
blacklist buckets, and no run with a failed blacklist fetch can ever produce
a major- or minor-blacklist denial. -/
theorem C10_blacklist_outage_never_denies (cfg : FilterConfig) (env : Env)
    (hboard : env.trello_board = none) :
    (∀ (d : Int) (info : DiscordInfo) (ud : RobloxData),
      check_permissions cfg.perm env.guildId env.userId env.userRoles = true →
      env.discord_id_int = some d →
      env.discord_info = some info →
      ¬(info.account_age_days < cfg.min_discord_age_days) →
      env.roblox_data = some ud →
      ¬(env.pipeline_badge_count < cfg.min_badge_count) →
      (run_check cfg env).outcome
        = .approved [] [] env.pipeline_badge_count) ∧
    (∀ cats, (run_check cfg env).outcome ≠ .denied (.majorBlacklist cats) ∧
      (run_check cfg env).outcome ≠ .denied (.minorBlacklist cats)) := by
  constructor
  · intro d info ud hperm hd hinfo hage hud hbadge
    simp only [run_check, hperm, hd, hinfo, hud, hboard, Bool.not_true,
      Bool.false_eq_true, if_false, if_neg hage, Option.map_none']
    simp [hbadge]
  · intro cats
    constructor <;>
    · simp only [run_check, hboard, Option.map_none']
      repeat' split
      all_goals simp_all

/-! #### Concrete fixtures for the pipeline witnesses -/

/-- A permissive configuration: no server/role restriction, one major
category, one deny keyword, one skip category, thresholds 90 days and 1
badge. -/
def cfgW : FilterConfig :=
  { perm := { bot_owners := [], test_servers := [],
              allowed_servers := [], allowed_roles := [] },
    trello := { major_blacklist_categories := ["Major"],
                deny_blacklist_categories := ["deny"],
                skip_categories := ["Skip"] },
    min_discord_age_days := 90,
    min_badge_count := 1 }

/-- A board with one major-category list whose open card names the user. -/
def boardW : List TrelloList := [⟨"Major", [⟨"Foo is flagged", none⟩]⟩]

/-- A run whose fetches all succeed and whose major bucket is non-empty. -/
def envW : Env :=
  { guildId := 0, userId := 0, userRoles := [],
    discord_id_int := some 123,
    discord_info := some ⟨123, "Foo#0001", 100, false, none⟩,
    roblox_data := some ⟨"Foo", 7, 500, 0, 0, 0, 0, 5, 1⟩,
    trello_board := some boardW,
    now := 0,
    pipeline_badges := [], pipeline_badge_count := 2 }

/-- Witness for C2_major_blacklist_short_circuits at a concrete input. -/
theorem C2_major_blacklist_short_circuits_witness :
    (check_trello_blacklist cfgW.trello ["Foo", toString (123 : Int)]
      envW.now boardW).major_blacklists ≠ [] ∧
    ((run_check cfgW envW).outcome = .denied (.majorBlacklist
        (check_trello_blacklist cfgW.trello ["Foo", toString (123 : Int)]
          envW.now boardW).major_blacklists) ∧
      reasonText (.majorBlacklist
        (check_trello_blacklist cfgW.trello ["Foo", toString (123 : Int)]
          envW.now boardW).major_blacklists)
        = "MAJOR BLACKLIST DETECTED: " ++ String.intercalate ", "
            ((check_trello_blacklist cfgW.trello ["Foo", toString (123 : Int)]
              envW.now boardW).major_blacklists) ∧
      (run_check cfgW envW).minor_check_evaluated = false ∧
      (run_check cfgW envW).badge_fetch_called = false ∧
      (run_check cfgW envW).badge_check_evaluated = false) :=
  ⟨by decide,
    C2_major_blacklist_short_circuits cfgW envW 123
      ⟨123, "Foo#0001", 100, false, none⟩ ⟨"Foo", 7, 500, 0, 0, 0, 0, 5, 1⟩
      boardW (by decide) rfl rfl (by decide) rfl rfl (by decide)⟩

/-- A run identical to envW except the discord account is only 10 days
old. -/
def envW2 : Env :=
  { envW with discord_info := some ⟨123, "Foo#0001", 10, false, none⟩ }

/-- Witness for C6_young_discord_account_denied_before_roblox at a concrete
input. -/
theorem C6_young_discord_account_denied_before_roblox_witness :
    ((10 : Int) < cfgW.min_discord_age_days) ∧
    (run_check cfgW envW2).outcome = .denied .discordTooYoung ∧
    (run_check cfgW envW2).roblox_fetch_called = false :=
  ⟨by decide,
    (C6_young_discord_account_denied_before_roblox cfgW envW2 123
      ⟨123, "Foo#0001", 10, false, none⟩ (by decide) rfl rfl (by decide)).1,
    (C6_young_discord_account_denied_before_roblox cfgW envW2 123
      ⟨123, "Foo#0001", 10, false, none⟩ (by decide) rfl rfl (by decide)).2.2⟩

/-- A board with one non-major list whose name contains the deny keyword and
whose open card names the user. -/
def boardW3 : List TrelloList := [⟨"Deny List", [⟨"Foo bad", none⟩]⟩]

/-- A run reaching the minor-blacklist check with a keyword match. -/
def envW3 : Env := { envW with trello_board := some boardW3 }

/-- Witness for C3_minor_deny_keywords_decide_denial at a concrete input. -/
theorem C3_minor_deny_keywords_decide_denial_witness :
    (check_trello_blacklist cfgW.trello ["Foo", toString (123 : Int)]
      envW3.now boardW3).major_blacklists = [] ∧
    ((check_trello_blacklist cfgW.trello ["Foo", toString (123 : Int)]
      envW3.now boardW3).blacklists.filter (fun bl =>
        cfgW.trello.deny_blacklist_categories.any
          (fun deny_cat => containsCI bl deny_cat))) ≠ [] ∧
    (run_check cfgW envW3).outcome = .denied (.minorBlacklist
      ((check_trello_blacklist cfgW.trello ["Foo", toString (123 : Int)]
        envW3.now boardW3).blacklists.filter (fun bl =>
          cfgW.trello.deny_blacklist_categories.any
            (fun deny_cat => containsCI bl deny_cat)))) :=
  ⟨by decide, by decide,
    ((C3_minor_deny_keywords_decide_denial cfgW envW3 123
      ⟨123, "Foo#0001", 100, false, none⟩ ⟨"Foo", 7, 500, 0, 0, 0, 0, 5, 1⟩
      boardW3 (by decide) rfl rfl (by decide) rfl rfl (by decide)).2.1
      (by decide)).1⟩

/-- A run identical to envW except the Trello fetch fails. -/
def envW4 : Env := { envW with trello_board := none }

/-- Witness for C10_blacklist_outage_never_denies at a concrete input. -/
theorem C10_blacklist_outage_never_denies_witness :
    envW4.trello_board = none ∧
    (run_check cfgW envW4).outcome
      = .approved [] [] envW4.pipeline_badge_count ∧
    (run_check cfgW envW4).outcome ≠ .denied (.majorBlacklist ["Major"]) :=
  ⟨rfl,
    (C10_blacklist_outage_never_denies cfgW envW4 rfl).1 123
      ⟨123, "Foo#0001", 100, false, none⟩ ⟨"Foo", 7, 500, 0, 0, 0, 0, 5, 1⟩
      (by decide) rfl rfl (by decide) rfl (by decide),
    ((C10_blacklist_outage_never_denies cfgW envW4 rfl).2 ["Major"]).1⟩

/-! ### Badge growth series (filter_check.py 217-227) -/

/-- Stable insertion by creation date (ties keep the existing order,
matching the stable Python list.sort under the creation-date key). -/
def insertBadge (b : Badge) : List Badge → List Badge
  | [] => [b]
  | c :: rest =>
      if b.creation_date ≤ c.creation_date then b :: c :: rest
      else c :: insertBadge b rest

/-- valid_badges.sort(key=lambda x: x["creation_date"]) — stable ascending
sort by creation date (filter_check.py 225). -/
def sortBadges : List Badge → List Badge
  | [] => []
  | b :: rest => insertBadge b (sortBadges rest)

/-- The pure data series generate_badge_growth_graph plots
(filter_check.py 217-227): None when there is no badge at all or no badge
strictly after account creation; otherwise the date axis
[account_created, b1, ..., bn] (badges filtered to creation strictly after
account creation, sorted ascending) paired with cumulative counts
[0, 1, ..., n]. -/
def badge_growth_series (badges : List Badge) (account_created_date : Int) :
    Option (List Int × List Nat) :=
  if badges = [] then none
  else
    let valid_badges := badges.filter
      (fun b => decide (account_created_date < b.creation_date))
    if valid_badges = [] then none
    else
      let sorted := sortBadges valid_badges
      some (account_created_date :: sorted.map (fun b => b.creation_date),
        0 :: List.range' 1 sorted.length)

theorem insertBadge_chain {b : Badge} :
    ∀ {l : List Badge},
    List.Chain' (fun x y : Badge => x.creation_date ≤ y.creation_date) l →
    List.Chain' (fun x y : Badge => x.creation_date ≤ y.creation_date)
      (insertBadge b l) := by
  intro l
  induction l with
  | nil =>
      intro _
      simp only [insertBadge]
      exact List.chain'_singleton b
  | cons c rest ih =>
      intro h
      simp only [insertBadge]
      split
      · rename_i hbc
        exact (List.chain'_cons'.mpr ⟨fun y hy => by
          cases rest with
          | nil => simp at hy; subst hy; exact hbc
          | cons e rest2 => simp at hy; subst hy; exact hbc,
          h⟩)
      · rename_i hbc
        rw [List.chain'_cons']
        refine ⟨?_, ih h.tail⟩
        intro y hy
        cases rest with
        | nil =>
            simp only [insertBadge, List.head?, Option.mem_def,
              Option.some.injEq] at hy
            subst hy
            omega
        | cons e rest2 =>
            simp only [insertBadge] at hy
            split at hy
            · simp only [List.head?, Option.mem_def, Option.some.injEq] at hy
              subst hy
              omega
            · simp only [List.head?, Option.mem_def, Option.some.injEq] at hy
              subst hy
              exact (List.chain'_cons.mp h).1

theorem sortBadges_chain : ∀ l : List Badge,
    List.Chain' (fun x y : Badge => x.creation_date ≤ y.creation_date)
      (sortBadges l) := by
  intro l
  induction l with
  | nil => simp [sortBadges]
  | cons b rest ih =>
      simp only [sortBadges]
      exact insertBadge_chain ih

theorem mem_insertBadge {x b : Badge} :
    ∀ {l : List Badge}, x ∈ insertBadge b l → x = b ∨ x ∈ l := by
  intro l
  induction l with
  | nil =>
      intro h
      simp [insertBadge] at h
      exact Or.inl h
  | cons c rest ih =>
      intro h
      simp only [insertBadge] at h
      split at h
      · rcases List.mem_cons.mp h with h | h
        · exact Or.inl h
        · exact Or.inr h
      · rcases List.mem_cons.mp h with h | h
        · exact Or.inr (h ▸ List.mem_cons_self _ _)
        · rcases ih h with h | h
          · exact Or.inl h
          · exact Or.inr (List.mem_cons_of_mem _ h)

theorem mem_sortBadges {x : Badge} :
    ∀ {l : List Badge}, x ∈ sortBadges l → x ∈ l := by
  intro l
  induction l with
  | nil => simp [sortBadges]
  | cons b rest ih =>
      intro h
      simp only [sortBadges] at h
      rcases mem_insertBadge h with h | h
      · exact h ▸ List.mem_cons_self _ _
      · exact List.mem_cons_of_mem _ (ih h)

/-- General shape of the series: whenever a series is produced, its date
axis is ascending, it starts at the account-creation date, and the
cumulative counts are exactly 0, 1, ..., n. -/
theorem badge_growth_series_shape (badges : List Badge)
    (account_created_date : Int) (dates : List Int) (counts : List Nat)
    (h : badge_growth_series badges account_created_date
      = some (dates, counts)) :
    List.Chain' (fun a b : Int => a ≤ b) dates ∧
    dates.head? = some account_created_date ∧
    counts = List.range' 0 dates.length := by
  unfold badge_growth_series at h
  split at h
  · exact absurd h (by simp)
  · dsimp only at h
    split at h
    · exact absurd h (by simp)
    · rename_i hvalid
      injection h with h
      injection h with hdates hcounts
      subst hdates
      subst hcounts
      refine ⟨?_, rfl, ?_⟩
      · rw [List.chain'_cons']
        constructor
        · intro y hy
          rcases hhead : (sortBadges (badges.filter
              (fun b => decide (account_created_date < b.creation_date)))) with
            _ | ⟨b0, rest⟩
          · rw [hhead] at hy
            simp at hy
          · rw [hhead] at hy
            simp only [List.map_cons, List.head?_cons, Option.mem_def,
              Option.some.injEq] at hy
            subst hy
            have hb0 : b0 ∈ sortBadges (badges.filter
                (fun b => decide (account_created_date < b.creation_date))) := by
              rw [hhead]
              exact List.mem_cons_self _ _
            have hb0f := List.of_mem_filter (mem_sortBadges hb0)
            simp only [decide_eq_true_eq] at hb0f
            exact le_of_lt hb0f
        · rw [List.chain'_map]
          exact (sortBadges_chain _).imp (fun a b hab => hab)
      · simp only [List.length_cons, List.length_map]
        rw [List.range'_succ]

/-- C7: for badges dated d0 < accountCreated < d1 < d2, the series filters
out the first badge, starts at (accountCreated, 0) and has exactly the two
steps (d1, 1), (d2, 2), strictly time-ordered; and in general the series
pairs the ascending date axis starting at account creation with cumulative
counts 0..n. -/
theorem C7_badge_growth_series (acc d0 d1 d2 : Int) (n0 n1 n2 : String)
    (h0 : d0 < acc) (h1 : acc < d1) (h2 : d1 < d2) :
    badge_growth_series [⟨n0, d0⟩, ⟨n1, d1⟩, ⟨n2, d2⟩] acc
      = some ([acc, d1, d2], [0, 1, 2]) ∧
    List.Chain' (fun a b : Int => a < b) [acc, d1, d2] ∧
    (∀ (badges : List Badge) (created : Int) (dates : List Int)
        (counts : List Nat),
      badge_growth_series badges created = some (dates, counts) →
      List.Chain' (fun a b : Int => a ≤ b) dates ∧
      dates.head? = some created ∧
      counts = List.range' 0 dates.length) := by
  refine ⟨?_, ?_, fun badges created dates counts h =>
    badge_growth_series_shape badges created dates counts h⟩
  · have hne0 : ¬(acc < d0) := not_lt.mpr (le_of_lt h0)
    have h02 : acc < d2 := lt_trans h1 h2
    simp [badge_growth_series, List.filter, hne0, h1, h02, sortBadges,
      insertBadge, le_of_lt h2, List.range']
  · simp [List.chain'_cons, h1, h2]

/-- Witness for C7_badge_growth_series at a concrete input. -/
theorem C7_badge_growth_series_witness :
    ((5 : Int) < 10 ∧ (10 : Int) < 20 ∧ (20 : Int) < 30) ∧
    badge_growth_series [⟨"a", 5⟩, ⟨"b", 20⟩, ⟨"c", 30⟩] 10
      = some ([10, 20, 30], [0, 1, 2]) :=
  ⟨⟨by decide, by decide, by decide⟩,
    (C7_badge_growth_series 10 5 20 30 "a" "b" "c"
      (by decide) (by decide) (by decide)).1⟩

/-! #### Characterization of the Trello scan (C8) -/

/-- A list contributes a finding exactly when some of its cards is not
past-due and matches an identifier. -/
def listHit (identifiers : List String) (now : Int) (cards : List Card) :
    Bool :=
  cards.any (fun c => !cardPastDue now c && cardMatches identifiers c)

theorem mem_addIfAbsent {y x : String} {l : List String} :
    y ∈ addIfAbsent x l ↔ y ∈ l ∨ y = x := by
  unfold addIfAbsent
  split
  · rename_i hx
    constructor
    · exact Or.inl
    · rintro (h | rfl)
      · exact h
      · exact hx
  · simp

theorem nodup_addIfAbsent {x : String} {l : List String} (h : l.Nodup) :
    (addIfAbsent x l).Nodup := by
  unfold addIfAbsent
  split
  · exact h
  · rename_i hx
    exact List.Nodup.append h (List.nodup_singleton x)
      (fun a ha hax => hx ((List.mem_singleton.mp hax) ▸ ha))

theorem addIfAbsent_idem (x : String) (l : List String) :
    addIfAbsent x (addIfAbsent x l) = addIfAbsent x l := by
  by_cases hx : x ∈ l
  · simp [addIfAbsent, hx]
  · simp [addIfAbsent, hx]

/-- Collapsing the inner card loop: one list either deposits its name once
into the bucket selected by major-category membership (when some open card
matches), or leaves the accumulator unchanged. -/
theorem scanCards_eq (cfg : TrelloConfig) (identifiers : List String)
    (now : Int) (listName : String) :
    ∀ (cards : List Card) (acc : BlacklistInfo),
    scanCards cfg identifiers now listName cards acc =
      if listHit identifiers now cards then
        (if listName ∈ cfg.major_blacklist_categories then
          ⟨addIfAbsent listName acc.major_blacklists, acc.blacklists⟩
        else
          ⟨acc.major_blacklists, addIfAbsent listName acc.blacklists⟩)
      else acc := by
  intro cards
  induction cards with
  | nil =>
      intro acc
      simp [scanCards, listHit]
  | cons c rest ih =>
      intro acc
      simp only [scanCards]
      by_cases hpd : cardPastDue now c = true
      · rw [if_pos hpd, ih acc]
        have hh : listHit identifiers now (c :: rest)
            = listHit identifiers now rest := by
          simp [listHit, hpd]
        rw [hh]
      · rw [if_neg hpd]
        by_cases hm : cardMatches identifiers c = true
        · rw [if_pos hm]
          have hh : listHit identifiers now (c :: rest) = true := by
            simp only [listHit, List.any_cons, Bool.or_eq_true,
              Bool.and_eq_true, Bool.not_eq_true']
            exact Or.inl ⟨by simpa using hpd, hm⟩
          rw [if_pos hh]
          by_cases hmaj : listName ∈ cfg.major_blacklist_categories
          · rw [if_pos hmaj, if_pos hmaj, ih]
            by_cases hhr : listHit identifiers now rest = true
            · rw [if_pos hhr, if_pos hmaj]
              simp [addIfAbsent_idem]
            · rw [if_neg hhr]
          · rw [if_neg hmaj, if_neg hmaj, ih]
            by_cases hhr : listHit identifiers now rest = true
            · rw [if_pos hhr, if_neg hmaj]
              simp [addIfAbsent_idem]
            · rw [if_neg hhr]
        · rw [if_neg hm, ih acc]
          have hh : listHit identifiers now (c :: rest)
              = listHit identifiers now rest := by
            simp [listHit, hm]
          rw [hh]

theorem mem_scanLists_major (cfg : TrelloConfig) (identifiers : List String)
    (now : Int) :
    ∀ (ls : List TrelloList) (acc : BlacklistInfo) (name : String),
    name ∈ (scanLists cfg identifiers now ls acc).major_blacklists ↔
      name ∈ acc.major_blacklists ∨
        (name ∉ cfg.skip_categories ∧ name ∈ cfg.major_blacklist_categories ∧
          ∃ tl ∈ ls, tl.name = name ∧
            listHit identifiers now tl.cards = true) := by
  intro ls
  induction ls with
  | nil =>
      intro acc name
      simp [scanLists]
  | cons tl rest ih =>
      intro acc name
      simp only [scanLists]
      by_cases hskip : tl.name ∈ cfg.skip_categories
      · rw [if_pos hskip, ih]
        constructor
        · rintro (h | ⟨h1, h2, tl2, htl2, hname, hhit⟩)
          · exact Or.inl h
          · exact Or.inr ⟨h1, h2, tl2, List.mem_cons_of_mem _ htl2, hname,
              hhit⟩
        · rintro (h | ⟨h1, h2, tl2, htl2, hname, hhit⟩)
          · exact Or.inl h
          · rcases List.mem_cons.mp htl2 with heq | hm
            · rw [heq] at hname
              rw [hname] at hskip
              exact absurd hskip h1
            · exact Or.inr ⟨h1, h2, tl2, hm, hname, hhit⟩
      · rw [if_neg hskip, ih, scanCards_eq]
        by_cases hhit : listHit identifiers now tl.cards = true
        · rw [if_pos hhit]
          by_cases hmaj : tl.name ∈ cfg.major_blacklist_categories
          · rw [if_pos hmaj]
            simp only [mem_addIfAbsent]
            constructor
            · rintro ((h | rfl) | ⟨h1, h2, tl2, htl2, hname, hhit2⟩)
              · exact Or.inl h
              · exact Or.inr ⟨hskip, hmaj, tl, List.mem_cons_self _ _, rfl,
                  hhit⟩
              · exact Or.inr ⟨h1, h2, tl2, List.mem_cons_of_mem _ htl2,
                  hname, hhit2⟩
            · rintro (h | ⟨h1, h2, tl2, htl2, hname, hhit2⟩)
              · exact Or.inl (Or.inl h)
              · rcases List.mem_cons.mp htl2 with heq | hm
                · rw [heq] at hname
                  exact Or.inl (Or.inr hname.symm)
                · exact Or.inr ⟨h1, h2, tl2, hm, hname, hhit2⟩
          · rw [if_neg hmaj]
            constructor
            · rintro (h | ⟨h1, h2, tl2, htl2, hname, hhit2⟩)
              · exact Or.inl h
              · exact Or.inr ⟨h1, h2, tl2, List.mem_cons_of_mem _ htl2,
                  hname, hhit2⟩
            · rintro (h | ⟨h1, h2, tl2, htl2, hname, hhit2⟩)
              · exact Or.inl h
              · rcases List.mem_cons.mp htl2 with heq | hm
                · exfalso
                  apply hmaj
                  rw [heq] at hname
                  rw [hname]
                  exact h2
                · exact Or.inr ⟨h1, h2, tl2, hm, hname, hhit2⟩
        · rw [if_neg hhit]
          constructor
          · rintro (h | ⟨h1, h2, tl2, htl2, hname, hhit2⟩)
            · exact Or.inl h
            · exact Or.inr ⟨h1, h2, tl2, List.mem_cons_of_mem _ htl2, hname,
                hhit2⟩
          · rintro (h | ⟨h1, h2, tl2, htl2, hname, hhit2⟩)
            · exact Or.inl h
            · rcases List.mem_cons.mp htl2 with heq | hm
              · rw [heq] at hhit2
                exact absurd hhit2 hhit
              · exact Or.inr ⟨h1, h2, tl2, hm, hname, hhit2⟩

theorem mem_scanLists_minor (cfg : TrelloConfig) (identifiers : List String)
    (now : Int) :
    ∀ (ls : List TrelloList) (acc : BlacklistInfo) (name : String),
    name ∈ (scanLists cfg identifiers now ls acc).blacklists ↔
      name ∈ acc.blacklists ∨
        (name ∉ cfg.skip_categories ∧ name ∉ cfg.major_blacklist_categories ∧
          ∃ tl ∈ ls, tl.name = name ∧
            listHit identifiers now tl.cards = true) := by
  intro ls
  induction ls with
  | nil =>
      intro acc name
      simp [scanLists]
  | cons tl rest ih =>
      intro acc name
      simp only [scanLists]
      by_cases hskip : tl.name ∈ cfg.skip_categories
      · rw [if_pos hskip, ih]
        constructor
        · rintro (h | ⟨h1, h2, tl2, htl2, hname, hhit⟩)
          · exact Or.inl h
          · exact Or.inr ⟨h1, h2, tl2, List.mem_cons_of_mem _ htl2, hname,
              hhit⟩
        · rintro (h | ⟨h1, h2, tl2, htl2, hname, hhit⟩)
          · exact Or.inl h
          · rcases List.mem_cons.mp htl2 with heq | hm
            · rw [heq] at hname
              rw [hname] at hskip
              exact absurd hskip h1
            · exact Or.inr ⟨h1, h2, tl2, hm, hname, hhit⟩
      · rw [if_neg hskip, ih, scanCards_eq]
        by_cases hhit : listHit identifiers now tl.cards = true
        · rw [if_pos hhit]
          by_cases hmaj : tl.name ∈ cfg.major_blacklist_categories
          · rw [if_pos hmaj]
            constructor
            · rintro (h | ⟨h1, h2, tl2, htl2, hname, hhit2⟩)
              · exact Or.inl h
              · exact Or.inr ⟨h1, h2, tl2, List.mem_cons_of_mem _ htl2,
                  hname, hhit2⟩
            · rintro (h | ⟨h1, h2, tl2, htl2, hname, hhit2⟩)
              · exact Or.inl h
              · rcases List.mem_cons.mp htl2 with heq | hm
                · exfalso
                  apply h2
                  rw [heq] at hname
                  rw [← hname]
                  exact hmaj
                · exact Or.inr ⟨h1, h2, tl2, hm, hname, hhit2⟩
          · rw [if_neg hmaj]
            simp only [mem_addIfAbsent]
            constructor
            · rintro ((h | rfl) | ⟨h1, h2, tl2, htl2, hname, hhit2⟩)
              · exact Or.inl h
              · exact Or.inr ⟨hskip, hmaj, tl, List.mem_cons_self _ _, rfl,
                  hhit⟩
              · exact Or.inr ⟨h1, h2, tl2, List.mem_cons_of_mem _ htl2,
                  hname, hhit2⟩
            · rintro (h | ⟨h1, h2, tl2, htl2, hname, hhit2⟩)
              · exact Or.inl (Or.inl h)
              · rcases List.mem_cons.mp htl2 with heq | hm
                · rw [heq] at hname
                  exact Or.inl (Or.inr hname.symm)
                · exact Or.inr ⟨h1, h2, tl2, hm, hname, hhit2⟩
        · rw [if_neg hhit]
          constructor
          · rintro (h | ⟨h1, h2, tl2, htl2, hname, hhit2⟩)
            · exact Or.inl h
            · exact Or.inr ⟨h1, h2, tl2, List.mem_cons_of_mem _ htl2, hname,
                hhit2⟩
          · rintro (h | ⟨h1, h2, tl2, htl2, hname, hhit2⟩)
            · exact Or.inl h
            · rcases List.mem_cons.mp htl2 with heq | hm
              · rw [heq] at hhit2
                exact absurd hhit2 hhit
              · exact Or.inr ⟨h1, h2, tl2, hm, hname, hhit2⟩

theorem scanLists_nodup (cfg : TrelloConfig) (identifiers : List String)
    (now : Int) :
    ∀ (ls : List TrelloList) (acc : BlacklistInfo),
    acc.major_blacklists.Nodup → acc.blacklists.Nodup →
    (scanLists cfg identifiers now ls acc).major_blacklists.Nodup ∧
      (scanLists cfg identifiers now ls acc).blacklists.Nodup := by
  intro ls
  induction ls with
  | nil =>
      intro acc h1 h2
      exact ⟨h1, h2⟩
  | cons tl rest ih =>
      intro acc h1 h2
      simp only [scanLists]
      by_cases hskip : tl.name ∈ cfg.skip_categories
      · rw [if_pos hskip]
        exact ih acc h1 h2
      · rw [if_neg hskip, scanCards_eq]
        by_cases hhit : listHit identifiers now tl.cards = true
        · rw [if_pos hhit]
          by_cases hmaj : tl.name ∈ cfg.major_blacklist_categories
          · rw [if_pos hmaj]
            exact ih _ (nodup_addIfAbsent h1) h2
          · rw [if_neg hmaj]
            exact ih _ h1 (nodup_addIfAbsent h2)
        · rw [if_neg hhit]
          exact ih acc h1 h2

/-- C8: in the blacklist scan, a list name appears in a bucket exactly when
the list is not skipped and some of its cards is open (no due date, or a due
date not in the past) and case-insensitively mentions one of the raw
identifiers; the name lands in the major bucket when it is a configured
major category and in the minor bucket otherwise; and each bucket holds each
name at most once. -/
theorem C8_trello_blacklist_characterization (cfg : TrelloConfig)
    (identifiers : List String) (now : Int) (board : List TrelloList)
    (name : String) :
    (name ∈ (check_trello_blacklist cfg identifiers now
        board).major_blacklists ↔
      name ∉ cfg.skip_categories ∧ name ∈ cfg.major_blacklist_categories ∧
        ∃ tl ∈ board, tl.name = name ∧
          ∃ card ∈ tl.cards, cardPastDue now card = false ∧
            cardMatches identifiers card = true) ∧
    (name ∈ (check_trello_blacklist cfg identifiers now board).blacklists ↔
      name ∉ cfg.skip_categories ∧ name ∉ cfg.major_blacklist_categories ∧
        ∃ tl ∈ board, tl.name = name ∧
          ∃ card ∈ tl.cards, cardPastDue now card = false ∧
            cardMatches identifiers card = true) ∧
    (check_trello_blacklist cfg identifiers now
      board).major_blacklists.Nodup ∧
    (check_trello_blacklist cfg identifiers now board).blacklists.Nodup := by
  have hhit : ∀ tl : TrelloList, listHit identifiers now tl.cards = true ↔
      ∃ card ∈ tl.cards, cardPastDue now card = false ∧
        cardMatches identifiers card = true := by
    intro tl
    simp [listHit, List.any_eq_true, Bool.and_eq_true, Bool.not_eq_true']
  refine ⟨?_, ?_, ?_⟩
  · rw [check_trello_blacklist, mem_scanLists_major]
    simp only [hhit]
    simp [BlacklistInfo.major_blacklists]
  · rw [check_trello_blacklist, mem_scanLists_minor]
    simp only [hhit]
    simp [BlacklistInfo.blacklists]
  · exact scanLists_nodup cfg identifiers now board ⟨[], []⟩
      List.nodup_nil List.nodup_nil

/-! ### Fetcher boundaries (C9)

Each fetcher is modelled as a body computing in Except String (a raised
Python exception is an .error) over an explicit upstream outcome, plus the
boundary function applying the except-handlers of the code.  An upstream request
outcome is a timeout, a transport error, or a response carrying a status
code and a body (none models an unparseable payload — res.json() or a field
parse raising inside the try block).  Timestamps are measured in days, so an
account age in days is now minus the creation timestamp. -/

/-- The outcome of one upstream HTTP request. -/
inductive Upstream (α : Type) where
  | timeout
  | netError
  | response (status : Nat) (body : Option α)
  deriving DecidableEq, Repr

/-- An upstream outcome that is a failure in the taxonomy of the spec:
a timeout, a network error, a non-2xx status or a malformed payload. -/
def upstreamFails {α : Type} : Upstream α → Prop
  | .timeout => True
  | .netError => True
  | .response s b => s ≠ 200 ∨ b = none

/-- fetch_social_count (filter_check.py 169-180): on a 200 the payload is
the value of data.get("count", 0); any non-200 is reported and yields 0; any
raise inside the try block is caught and yields 0. -/
def fetch_social_count_body (u : Upstream Nat) : Except String Nat :=
  match u with
  | .timeout => .error "TimeoutError"
  | .netError => .error "ClientError"
  | .response status body =>
    if status = 200 then
      match body with
      | none => .error "malformed payload"
      | some count => .ok count
    else .ok 0

/-- The fetch_social_count boundary: except Exception returns 0. -/
def fetch_social_count (u : Upstream Nat) : Nat :=
  match fetch_social_count_body u with
  | .ok v => v
  | .error _ => 0

/-- The outcome of bot.fetch_user, whose documented raise set is
discord.NotFound and discord.HTTPException (the latter covering network
errors, timeouts, non-2xx statuses and malformed payloads handled inside the
client). -/
inductive DiscordFetch where
  | notFound
  | httpError
  | ok (id : Int) (name : String) (discriminator : String)
      (account_age_days : Int) (isBot : Bool) (avatar : Option String)
  deriving DecidableEq, Repr

/-- fetch_discord_user_info body (filter_check.py 285-295). -/
def fetch_discord_user_info_body (u : DiscordFetch) :
    Except String DiscordInfo :=
  match u with
  | .notFound => .error "discord.NotFound"
  | .httpError => .error "discord.HTTPException"
  | .ok id name discriminator age isBot avatar =>
      .ok ⟨id, name ++ "#" ++ discriminator, age, isBot, avatar⟩

/-- The fetch_discord_user_info boundary: the two except clauses
(discord.NotFound, discord.HTTPException) cover the documented raise set and
both return None. -/
def fetch_discord_user_info (u : DiscordFetch) : Option DiscordInfo :=
  match fetch_discord_user_info_body u with
  | .ok v => some v
  | .error _ => none

/-- One item of a badge page: a name, and the parsed creation timestamp when
the record carries a "created" field. -/
structure BadgeItem where
  name : String
  created : Option Int
  deriving DecidableEq, Repr

/-- One decoded badge page: its items and whether a nextPageCursor is
present. -/
structure BadgePage where
  data : List BadgeItem
  nextPageCursor : Bool
  deriving DecidableEq, Repr

/-- The badge pagination loop of fetch_user_badges_with_count
(filter_check.py 183-214).  The input list enumerates the upstream outcomes
of the successive page requests; the loop stops at a response without a next
cursor, breaks (keeping its accumulation) on a non-200, and raises on a
timeout, transport error or malformed payload — the .error carries the
locals accumulated so far, because Python locals survive into the except
handler. -/
def badgesBody : List (Upstream BadgePage) → List Badge → Nat →
    Except (String × List Badge × Nat) (List Badge × Nat)
  | [], acc, cnt => .ok (acc, cnt)
  | o :: rest, acc, cnt =>
    match o with
    | .timeout => .error ("TimeoutError", acc, cnt)
    | .netError => .error ("ClientError", acc, cnt)
    | .response status body =>
      if status = 200 then
        match body with
        | none => .error ("malformed payload", acc, cnt)
        | some page =>
          let newBadges := page.data.filterMap
            (fun it => it.created.map (fun d => Badge.mk it.name d))
          if page.nextPageCursor then
            badgesBody rest (acc ++ newBadges) (cnt + page.data.length)
          else .ok (acc ++ newBadges, cnt + page.data.length)
      else .ok (acc, cnt)

/-- The loop result as the caller sees it from a given starting state: the
except handler falls through to return badges, badge_count, so a raise
yields whatever was accumulated at the raise point. -/
def badges_result (pages : List (Upstream BadgePage)) (acc : List Badge)
    (cnt : Nat) : List Badge × Nat :=
  match badgesBody pages acc cnt with
  | .ok r => r
  | .error (_, a, c) => (a, c)

/-- The fetch_user_badges_with_count boundary. -/
def fetch_user_badges_with_count (pages : List (Upstream BadgePage)) :
    List Badge × Nat :=
  badges_result pages [] 0

/-- The per-step payloads of fetch_roblox_user_data (filter_check.py
103-166).  idLookup: some none models an empty data array (user not found),
some (some id) the resolved id.  userInfo: some none models missing
name/created fields, some (some (name, created)) the parsed profile.
canView: the value of data.get("canView", False). -/
structure RobloxUpstream where
  idLookup : Upstream (Option Int)
  userInfo : Upstream (Option (String × Int))
  canView : Upstream Bool
  followers : Upstream Nat
  following : Upstream Nat
  friends : Upstream Nat
  badgePages : List (Upstream BadgePage)
  deriving DecidableEq, Repr

/-- fetch_roblox_user_data body: id lookup, profile attributes, inventory
visibility, then the three social counts and the badge pagination (whose own
failures degrade internally without aborting the profile). -/
def fetch_roblox_user_data_body (u : RobloxUpstream) (now : Int) :
    Except String (Option RobloxData) :=
  match u.idLookup with
  | .timeout => .error "TimeoutError"
  | .netError => .error "ClientError"
  | .response status body =>
    if status = 200 then
      match body with
      | none => .error "malformed payload"
      | some none => .ok none
      | some (some user_id) =>
        match u.userInfo with
        | .timeout => .error "TimeoutError"
        | .netError => .error "ClientError"
        | .response status2 body2 =>
          if status2 = 200 then
            match body2 with
            | none => .error "malformed payload"
            | some none => .ok none
            | some (some (username, created)) =>
              match u.canView with
              | .timeout => .error "TimeoutError"
              | .netError => .error "ClientError"
              | .response status3 body3 =>
                if status3 = 200 then
                  match body3 with
                  | none => .error "malformed payload"
                  | some canView =>
                    if !canView then .ok none
                    else
                      let followers := fetch_social_count u.followers
                      let following := fetch_social_count u.following
                      let friends := fetch_social_count u.friends
                      let bc := fetch_user_badges_with_count u.badgePages
                      .ok (some
                        { username := username, user_id := user_id,
                          account_age_days := now - created,
                          account_created_date := created,
                          followers := (followers : Int),
                          following := (following : Int),
                          friends := (friends : Int),
                          badge_count := bc.2,
                          badge_pages := (bc.2 + 29) / 30 })
                else .ok none
          else .ok none
    else .ok none

/-- The fetch_roblox_user_data boundary: except asyncio.TimeoutError and
except Exception both return None. -/
def fetch_roblox_user_data (u : RobloxUpstream) (now : Int) :
    Option RobloxData :=
  match fetch_roblox_user_data_body u now with
  | .ok r => r
  | .error _ => none

/-- One entry of the group-roles listing (filter_check.py 262-265). -/
structure GroupEntry where
  group_id : Int
  group_name : String
  role_name : String
  deriving DecidableEq, Repr

/-- The group-related configuration (MAIN_GROUP may be absent). -/
structure GroupsConfig where
  main_group : Option Int
  main_divisions : List Int
  sub_divisions : List Int
  deriving DecidableEq, Repr

/-- One iteration of the get_user_divisions partition loop
(filter_check.py 262-277): membership in the three configured id sets plus
the case-insensitive "intelligence" substring flag over normalized
group/role names. -/
def divisionsStep (cfg : GroupsConfig)
    (acc : List (String × String) × List (String × String) ×
      Option (String × String) × List (String × String))
    (g : GroupEntry) :
    List (String × String) × List (String × String) ×
      Option (String × String) × List (String × String) :=
  let mains := if g.group_id ∈ cfg.main_divisions then
      acc.1 ++ [(g.group_name, g.role_name)] else acc.1
  let subs := if g.group_id ∈ cfg.sub_divisions then
      acc.2.1 ++ [(g.group_name, g.role_name)] else acc.2.1
  let mg := if cfg.main_group = some g.group_id then
      some (g.group_name, g.role_name) else acc.2.2.1
  let gn := normalize_text (g.group_name.data.map Char.toLower)
  let rn := normalize_text (g.role_name.data.map Char.toLower)
  let intel := if subChars ("intelligence" : String).data gn
      || subChars ("intelligence" : String).data rn then
      acc.2.2.2 ++ [(g.group_name, g.role_name)] else acc.2.2.2
  (mains, subs, mg, intel)

/-- get_user_divisions body (filter_check.py 247-282). -/
def get_user_divisions_body (cfg : GroupsConfig)
    (u : Upstream (List GroupEntry)) :
    Except String (List (String × String) × List (String × String) ×
      Option (String × String) × List (String × String)) :=
  match u with
  | .timeout => .error "TimeoutError"
  | .netError => .error "ClientError"
  | .response status body =>
    if status = 200 then
      match body with
      | none => .error "malformed payload"
      | some groups => .ok (groups.foldl (divisionsStep cfg) ([], [], none, []))
    else .ok ([], [], none, [])

/-- The get_user_divisions boundary: non-200 returns the empty partition
directly; except Exception returns the same empty partition. -/
def get_user_divisions (cfg : GroupsConfig) (u : Upstream (List GroupEntry)) :
    List (String × String) × List (String × String) ×
      Option (String × String) × List (String × String) :=
  match get_user_divisions_body cfg u with
  | .ok r => r
  | .error _ => ([], [], none, [])

/-- The check_trello_blacklist fetch boundary (filter_check.py 314-344):
non-200 returns None; a raise (timeout, transport, malformed payload) is
caught by except Exception and returns None; a decoded board is scanned. -/
def check_trello_blacklist_fetch_body (cfg : TrelloConfig)
    (identifiers : List String) (now : Int)
    (u : Upstream (List TrelloList)) : Except String (Option BlacklistInfo) :=
  match u with
  | .timeout => .error "TimeoutError"
  | .netError => .error "ClientError"
  | .response status body =>
    if status = 200 then
      match body with
      | none => .error "malformed payload"
      | some board => .ok (some (check_trello_blacklist cfg identifiers now
          board))
    else .ok none

/-- The check_trello_blacklist boundary. -/
def check_trello_blacklist_fetch (cfg : TrelloConfig)
    (identifiers : List String) (now : Int)
    (u : Upstream (List TrelloList)) : Option BlacklistInfo :=
  match check_trello_blacklist_fetch_body cfg identifiers now u with
  | .ok r => r
  | .error _ => none

/-- A badge pagination in which the first page succeeds (one badge, with a
next cursor) and the second request times out. -/
def badgePagesC9 : List (Upstream BadgePage) :=
  [.response 200 (some ⟨[⟨"b", some 5⟩], true⟩), .timeout]

/-- C9 counterexample: on a mid-pagination failure the badge fetcher does
not return its sentinel unavailable value.  With one successful page (one
badge) followed by a timeout, it returns the partial accumulation
([badge], 1), which is neither an empty collection nor zero — though no
exception crosses the boundary. -/
theorem C9_badge_fetch_partial_not_sentinel :
    upstreamFails (badgePagesC9.get ⟨1, by decide⟩) ∧
    fetch_user_badges_with_count badgePagesC9 = ([⟨"b", 5⟩], 1) ∧
    (fetch_user_badges_with_count badgePagesC9).1 ≠ [] ∧
    (fetch_user_badges_with_count badgePagesC9).2 ≠ 0 := by
  refine ⟨trivial, by decide, by decide, by decide⟩

/-- C9 (amended): no fetcher propagates an exception across its boundary.
On every failing upstream outcome (timeout, transport error, non-2xx,
malformed payload) the social-count fetcher returns 0, the discord user-info
fetcher returns None, the profile fetcher returns None at every stage (also
for a not-found user, invalid profile data, or a private inventory), the
group-affiliations fetcher returns the empty partition, and the kanban
blacklist fetcher returns None.  The paginated badge fetcher returns the
badges and count accumulated before the failure — the empty sentinel exactly
when the first request fails. -/
theorem C9_fetchers_never_raise :
    (∀ u : Upstream Nat, upstreamFails u → fetch_social_count u = 0) ∧
    (∀ u : DiscordFetch, u = .notFound ∨ u = .httpError →
      fetch_discord_user_info u = none) ∧
    (∀ (u : RobloxUpstream) (now : Int), upstreamFails u.idLookup →
      fetch_roblox_user_data u now = none) ∧
    (∀ (u : RobloxUpstream) (now : Int),
      u.idLookup = .response 200 (some none) →
      fetch_roblox_user_data u now = none) ∧
    (∀ (u : RobloxUpstream) (now : Int) (uid : Int),
      u.idLookup = .response 200 (some (some uid)) →
      upstreamFails u.userInfo →
      fetch_roblox_user_data u now = none) ∧
    (∀ (u : RobloxUpstream) (now : Int) (uid : Int),
      u.idLookup = .response 200 (some (some uid)) →
      u.userInfo = .response 200 (some none) →
      fetch_roblox_user_data u now = none) ∧
    (∀ (u : RobloxUpstream) (now : Int) (uid : Int)
        (username : String) (created : Int),
      u.idLookup = .response 200 (some (some uid)) →
      u.userInfo = .response 200 (some (some (username, created))) →
      upstreamFails u.canView →
      fetch_roblox_user_data u now = none) ∧
    (∀ (u : RobloxUpstream) (now : Int) (uid : Int)
        (username : String) (created : Int),
      u.idLookup = .response 200 (some (some uid)) →
      u.userInfo = .response 200 (some (some (username, created))) →
      u.canView = .response 200 (some false) →
      fetch_roblox_user_data u now = none) ∧
    (∀ (u : Upstream BadgePage) (rest : List (Upstream BadgePage))
        (acc : List Badge) (cnt : Nat), upstreamFails u →
      badges_result (u :: rest) acc cnt = (acc, cnt)) ∧
    (∀ (page : BadgePage) (rest : List (Upstream BadgePage))
        (acc : List Badge) (cnt : Nat),
      badges_result (.response 200 (some page) :: rest) acc cnt =
        (if page.nextPageCursor then
          badges_result rest
            (acc ++ page.data.filterMap
              (fun it => it.created.map (fun d => Badge.mk it.name d)))
            (cnt + page.data.length)
        else
          (acc ++ page.data.filterMap
              (fun it => it.created.map (fun d => Badge.mk it.name d)),
            cnt + page.data.length))) ∧
    (∀ (u : Upstream BadgePage) (rest : List (Upstream BadgePage)),
      upstreamFails u →
      fetch_user_badges_with_count (u :: rest) = ([], 0)) ∧
    (∀ (cfg : GroupsConfig) (u : Upstream (List GroupEntry)),
      upstreamFails u → get_user_divisions cfg u = ([], [], none, [])) ∧
    (∀ (cfg : TrelloConfig) (identifiers : List String) (now : Int)
        (u : Upstream (List TrelloList)), upstreamFails u →
      check_trello_blacklist_fetch cfg identifiers now u = none) := by
  have hfail : ∀ {α : Type} (u : Upstream α), upstreamFails u →
      u = .timeout ∨ u = .netError ∨
      (∃ s b, u = .response s b ∧ s ≠ 200) ∨
      (∃ s, u = .response s none ∧ s = 200) := by
    intro α u h
    cases u with
    | timeout => exact Or.inl rfl
    | netError => exact Or.inr (Or.inl rfl)
    | response s b =>
        rcases h with hs | rfl
        · exact Or.inr (Or.inr (Or.inl ⟨s, b, rfl, hs⟩))
        · by_cases hs : s = 200
          · exact Or.inr (Or.inr (Or.inr ⟨s, rfl, hs⟩))
          · exact Or.inr (Or.inr (Or.inl ⟨s, none, rfl, hs⟩))
  refine ⟨?_, ?_, ?_, ?_, ?_, ?_, ?_, ?_, ?_, ?_, ?_, ?_, ?_⟩
  · intro u h
    rcases hfail u h with rfl | rfl | ⟨s, b, rfl, hs⟩ | ⟨s, rfl, rfl⟩
    · rfl
    · rfl
    · simp [fetch_social_count, fetch_social_count_body, hs]
    · rfl
  · rintro u (rfl | rfl) <;> rfl
  · intro u now h
    rcases hfail u.idLookup h with he | he | ⟨s, b, he, hs⟩ | ⟨s, he, rfl⟩
    · simp [fetch_roblox_user_data, fetch_roblox_user_data_body, he]
    · simp [fetch_roblox_user_data, fetch_roblox_user_data_body, he]
    · simp [fetch_roblox_user_data, fetch_roblox_user_data_body, he, hs]
    · simp [fetch_roblox_user_data, fetch_roblox_user_data_body, he]
  · intro u now he
    simp [fetch_roblox_user_data, fetch_roblox_user_data_body, he]
  · intro u now uid he h
    rcases hfail u.userInfo h with h2 | h2 | ⟨s, b, h2, hs⟩ | ⟨s, h2, rfl⟩
    · simp [fetch_roblox_user_data, fetch_roblox_user_data_body, he, h2]
    · simp [fetch_roblox_user_data, fetch_roblox_user_data_body, he, h2]
    · simp [fetch_roblox_user_data, fetch_roblox_user_data_body, he, h2, hs]
    · simp [fetch_roblox_user_data, fetch_roblox_user_data_body, he, h2]
  · intro u now uid he h2
    simp [fetch_roblox_user_data, fetch_roblox_user_data_body, he, h2]
  · intro u now uid username created he h2 h
    rcases hfail u.canView h with h3 | h3 | ⟨s, b, h3, hs⟩ | ⟨s, h3, rfl⟩
    · simp [fetch_roblox_user_data, fetch_roblox_user_data_body, he, h2, h3]
    · simp [fetch_roblox_user_data, fetch_roblox_user_data_body, he, h2, h3]
    · simp [fetch_roblox_user_data, fetch_roblox_user_data_body, he, h2, h3,
        hs]
    · simp [fetch_roblox_user_data, fetch_roblox_user_data_body, he, h2, h3]
  · intro u now uid username created he h2 h3
    simp [fetch_roblox_user_data, fetch_roblox_user_data_body, he, h2, h3]
  · intro u rest acc cnt h
    rcases hfail u h with rfl | rfl | ⟨s, b, rfl, hs⟩ | ⟨s, rfl, rfl⟩
    · rfl
    · rfl
    · simp [badges_result, badgesBody, hs]
    · rfl
  · intro page rest acc cnt
    by_cases hc : page.nextPageCursor = true
    · simp [badges_result, badgesBody, hc]
    · simp [badges_result, badgesBody, hc]
  · intro u rest h
    rcases hfail u h with rfl | rfl | ⟨s, b, rfl, hs⟩ | ⟨s, rfl, rfl⟩
    · rfl
    · rfl
    · simp [fetch_user_badges_with_count, badges_result, badgesBody, hs]
    · rfl
  · intro cfg u h
    rcases hfail u h with rfl | rfl | ⟨s, b, rfl, hs⟩ | ⟨s, rfl, rfl⟩
    · rfl
    · rfl
    · simp [get_user_divisions, get_user_divisions_body, hs]
    · rfl
  · intro cfg identifiers now u h
    rcases hfail u h with rfl | rfl | ⟨s, b, rfl, hs⟩ | ⟨s, rfl, rfl⟩
    · rfl
    · rfl
    · simp [check_trello_blacklist_fetch, check_trello_blacklist_fetch_body,
        hs]
    · rfl

/-- Witness for C9_fetchers_never_raise at concrete inputs. -/
theorem C9_fetchers_never_raise_witness :
    upstreamFails (Upstream.response (α := Nat) 500 (some 7)) ∧
    fetch_social_count (.response 500 (some 7)) = 0 ∧
    fetch_discord_user_info .notFound = none ∧
    fetch_user_badges_with_count [Upstream.timeout] = ([], 0) ∧
    get_user_divisions ⟨none, [], []⟩ .netError = ([], [], none, []) ∧
    check_trello_blacklist_fetch ⟨[], [], []⟩ [] 0 (.response 404 none)
      = none :=
  ⟨Or.inl (by decide),
    C9_fetchers_never_raise.1 (.response 500 (some 7)) (Or.inl (by decide)),
    C9_fetchers_never_raise.2.1 .notFound (Or.inl rfl),
    (C9_fetchers_never_raise.2.2.2.2.2.2.2.2.2.2.1) .timeout [] trivial,
    (C9_fetchers_never_raise.2.2.2.2.2.2.2.2.2.2.2.1) ⟨none, [], []⟩
      .netError trivial,
    (C9_fetchers_never_raise.2.2.2.2.2.2.2.2.2.2.2.2) ⟨[], [], []⟩ [] 0
      (.response 404 none) (Or.inl (by decide))⟩

end CGFilter
